import Mathlib

/-!
Verification of the AI-Code-Analyzer repository against its specification.

The development shallowly embeds the two source files:

* `Extractor.py` — the entity extraction engine (`extract_entities_from_directory`,
  `extract_entities_from_file`, `extract_class`, `extract_function`,
  `get_decorator_name`, `get_attribute_name`);
* `Analyzer.py` — the `ERPNextAnalyzer` AST visitor (`visit_FunctionDef`,
  `analyze_on_submit`) and the RAG pipeline (`build_documents`, `build_index`,
  `retrieve`).

The Python AST is modelled by the inductive types `PyExpr` / `PyStmt`, covering
exactly the node shapes the two files inspect (expression statements, assignments,
`if` statements, sync and async function definitions, class definitions, imports).
Line numbers are carried as `Nat` fields, mirroring `lineno` / `end_lineno`.
`ast.get_docstring` is modelled by `get_docstring` over a node body: it returns the
leading string-constant expression statement if there is one (the indentation
clean-up that `ast.get_docstring` performs on the text is not modelled; the model
treats the stored constant as the docstring text).  File I/O and `ast.parse` are
external collaborators: a file is modelled by the outcome of reading and parsing
it, an `Except` value, and the FAISS index is modelled by the list of vectors
added to it, with the embedding model a function parameter.
-/

/-- Python expression nodes, as inspected by the analyzer and the extractor.
`name` is `ast.Name`, `attribute` is `ast.Attribute`, `call` is `ast.Call`,
`constant` is a string `ast.Constant` (docstrings); every other expression shape
is collapsed into `otherExpr`, since neither source file distinguishes them. -/
inductive PyExpr where
  | name (id : String)
  | attribute (value : PyExpr) (attr : String)
  | call (func : PyExpr) (args : List PyExpr)
  | constant (s : String)
  | otherExpr

/-- Python statement nodes, as inspected by the analyzer and the extractor.
`exprStmt` is `ast.Expr`, `assign` is `ast.Assign` (value only: neither file
looks at targets), `ifStmt` is `ast.If`, `functionDef` / `asyncFunctionDef` /
`classDef` carry the fields the extractor reads (`name`, `args` as the list of
positional parameter names, `decorator_list`, `body`, `lineno`, `end_lineno`,
and `bases` for classes), `importFrom` is `ast.ImportFrom`; every other
statement shape is collapsed into `passStmt`. -/
inductive PyStmt where
  | exprStmt (value : PyExpr) (lineno : Nat)
  | assign (value : PyExpr) (lineno : Nat)
  | ifStmt (body orelse : List PyStmt) (lineno : Nat)
  | functionDef (name : String) (args : List String) (decorator_list : List PyExpr)
      (body : List PyStmt) (lineno end_lineno : Nat)
  | asyncFunctionDef (name : String) (args : List String) (decorator_list : List PyExpr)
      (body : List PyStmt) (lineno end_lineno : Nat)
  | classDef (name : String) (bases : List PyExpr) (decorator_list : List PyExpr)
      (body : List PyStmt) (lineno end_lineno : Nat)
  | importFrom (module : Option String) (lineno : Nat)
  | passStmt (lineno : Nat)

/-- `ast.get_docstring(node)` on a node with the given `body`: the docstring is
the leading statement when it is a string-constant expression, else absent. -/
def get_docstring (body : List PyStmt) : Option String :=
  match body with
  | PyStmt.exprStmt (PyExpr.constant s) _ :: _ => some s
  | _ => none

/-- The `parts` list built by the `while` loop of `Extractor.get_attribute_name`:
attribute names from the outermost access inward, then the base identifier when
the chain bottoms out in an `ast.Name` (and nothing for any other base). -/
def attributeParts : PyExpr → List String
  | PyExpr.attribute value attr => attr :: attributeParts value
  | PyExpr.name id => [id]
  | _ => []

/-- `Extractor.get_attribute_name`: dot-join the collected parts in reverse
(source) order. -/
def get_attribute_name (node : PyExpr) : String :=
  String.intercalate "." (attributeParts node).reverse

/-- `Extractor.get_decorator_name`: an `ast.Name` resolves to its identifier, an
`ast.Attribute` to its dotted chain, an `ast.Call` to the resolution of its
callee (arguments discarded), and any other shape to `"unknown_decorator"`. -/
def get_decorator_name : PyExpr → String
  | PyExpr.name id => id
  | PyExpr.attribute value attr => get_attribute_name (PyExpr.attribute value attr)
  | PyExpr.call func _ => get_decorator_name func
  | PyExpr.constant _ => "unknown_decorator"
  | PyExpr.otherExpr => "unknown_decorator"

/-- Python `str.startswith(pre)`: `pre` is a character-level prefix of the
string. -/
def startswith (s pre : String) : Bool :=
  pre.data.isPrefixOf s.data

/-- The dictionary returned by `Extractor.extract_function` (its `"type"` field
is always `"function"`). `parent_class` is `Option String`, `none` standing for
Python `None`. -/
structure FuncEntity where
  type : String
  kind : String
  name : String
  line : Nat
  end_line : Nat
  params : List String
  decorators : List String
  docstring : String
  is_async : Bool
  parent_class : Option String
  deriving Repr, DecidableEq

/-- `Extractor.extract_function`, over the fields of the function node.  The
callers perform the `isinstance` dispatch, so `is_async` is passed as the flag
`isinstance(node, ast.AsyncFunctionDef)` computed at the dispatch site.  The
`source_code` parameter of the Python function is unused by its body and is
omitted.  The Python truthiness test `if parent_class:` is false for both
`None` and the empty string, modelled by `parent_class.getD "" ≠ ""`. -/
def extract_function (name : String) (args : List String) (decorator_list : List PyExpr)
    (body : List PyStmt) (lineno end_lineno : Nat) (is_async : Bool)
    (parent_class : Option String) : FuncEntity :=
  let docstring := (get_docstring body).getD ""
  let params := args
  let decorators := decorator_list.map get_decorator_name
  let kind :=
    if parent_class.getD "" ≠ "" then
      if name = "__init__" then "constructor"
      else if startswith name "_" then "private_method"
      else "method"
    else "function"
  { type := "function"
    kind := kind
    name := name
    line := lineno
    end_line := end_lineno
    params := params
    decorators := decorators
    docstring := if docstring ≠ "" then docstring.take 200 else ""
    is_async := is_async
    parent_class := parent_class }

/-- The dictionary returned by `Extractor.extract_class` (its `"type"` field is
always `"class"`). -/
structure ClassEntity where
  type : String
  name : String
  line : Nat
  end_line : Nat
  bases : List String
  decorators : List String
  docstring : String
  methods : List FuncEntity
  method_count : Nat
  deriving Repr, DecidableEq

/-- `Extractor.extract_class`, over the fields of the class node: bases that are
`ast.Name` or `ast.Attribute` are resolved (other base shapes are skipped),
decorators are resolved by `get_decorator_name`, and the methods are the
extraction of exactly the immediate `FunctionDef` / `AsyncFunctionDef` items of
the class body. -/
def extract_class (name : String) (bases : List PyExpr) (decorator_list : List PyExpr)
    (body : List PyStmt) (lineno end_lineno : Nat) : ClassEntity :=
  let docstring := (get_docstring body).getD ""
  let baseNames := bases.filterMap (fun base =>
    match base with
    | PyExpr.name id => some id
    | PyExpr.attribute value attr => some (get_attribute_name (PyExpr.attribute value attr))
    | _ => none)
  let decorators := decorator_list.map get_decorator_name
  let methods := body.filterMap (fun item =>
    match item with
    | PyStmt.functionDef n a d b l e => some (extract_function n a d b l e false (some name))
    | PyStmt.asyncFunctionDef n a d b l e => some (extract_function n a d b l e true (some name))
    | _ => none)
  { type := "class"
    name := name
    line := lineno
    end_line := end_lineno
    bases := baseNames
    decorators := decorators
    docstring := if docstring ≠ "" then docstring.take 200 else ""
    methods := methods
    method_count := methods.length }

/-- A top-level entity record: either the `extract_class` dictionary or the
`extract_function` dictionary. -/
inductive Entity where
  | cls (c : ClassEntity)
  | fn (f : FuncEntity)
  deriving Repr, DecidableEq

/-- The per-node dispatch of the `for node in tree.body` loop of
`Extractor.extract_entities_from_file`: a `ClassDef` goes to `extract_class`, a
`FunctionDef` / `AsyncFunctionDef` goes to `extract_function` with no parent
class, and every other top-level statement contributes nothing. -/
def extract_entity : PyStmt → Option Entity
  | PyStmt.classDef n b d body l e => some (Entity.cls (extract_class n b d body l e))
  | PyStmt.functionDef n a d body l e =>
      some (Entity.fn (extract_function n a d body l e false none))
  | PyStmt.asyncFunctionDef n a d body l e =>
      some (Entity.fn (extract_function n a d body l e true none))
  | _ => none

/-- `Extractor.extract_entities_from_file`, over the body of the parsed module
tree: collect the entities of the top-level nodes, in order. -/
def extract_entities_from_file (tree_body : List PyStmt) : List Entity :=
  tree_body.filterMap extract_entity

/-- `Extractor.extract_entities_from_directory`.  A candidate file is modelled
by its (relative) path paired with the outcome of reading, parsing and
extracting it: `Except.ok entities` on success, `Except.error msg` when the
read or the parse raised (the `try`/`except` in the source catches either).
The loop appends `(path, entities)` for each success with a non-empty entity
list (`if entities:`) and skips failures.  The path-relativization arithmetic
(`file_path.relative_to`) and the `verbose` logging are not modelled. -/
def extract_entities_from_directory (files : List (String × Except String (List Entity))) :
    List (String × List Entity) :=
  files.foldl (fun all_entities file =>
    match file.2 with
    | Except.ok entities =>
        if entities ≠ [] then all_entities ++ [(file.1, entities)] else all_entities
    | Except.error _ => all_entities) []

/-- One record of `stats["business_rules"]` in `Analyzer.ERPNextAnalyzer`. -/
structure BusinessRule where
  source_method : String
  calls : String
  line_number : Nat
  deriving Repr, DecidableEq

/-- `ERPNextAnalyzer.analyze_on_submit`: scan the immediate statements of the
hook body; an expression statement whose value is a call with an `attr` field on
its callee (i.e. the callee is an `ast.Attribute`) appends one business rule
recording `func.attr` and the statement line; everything else is skipped. -/
def analyze_on_submit (body : List PyStmt) : List BusinessRule :=
  body.foldl (fun rules item =>
    match item with
    | PyStmt.exprStmt value lineno =>
      match value with
      | PyExpr.call func _ =>
        match func with
        | PyExpr.attribute _ called_method =>
            rules ++ [{ source_method := "on_submit"
                        calls := called_method
                        line_number := lineno }]
        | _ => rules
      | _ => rules
    | _ => rules) []

/-- The mutable `stats` of `ERPNextAnalyzer`, restricted to the fields the
function-definition pass touches (`dependencies`, a set filled by
`visit_ImportFrom`, and the bookkeeping `current_function` are not modelled). -/
structure AnalyzerStats where
  methods_found : Nat
  business_rules : List BusinessRule
  deriving Repr, DecidableEq

mutual

/-- One step of `ast.NodeVisitor.visit` under `ERPNextAnalyzer`: a sync
`FunctionDef` runs `visit_FunctionDef` (count it, run `analyze_on_submit` when
it is named `on_submit`, then `generic_visit` into the body); every other
statement has no visitor, so `generic_visit` descends into its child statements
(async function bodies, class bodies, both branches of an `if`).  Function
definitions cannot occur inside the expression children, so descending into
expressions is a no-op and is elided. -/
def visitStmt (s : AnalyzerStats) : PyStmt → AnalyzerStats
  | PyStmt.functionDef name _ _ body _ _ =>
      let s1 : AnalyzerStats := { s with methods_found := s.methods_found + 1 }
      let s2 : AnalyzerStats :=
        if name = "on_submit" then
          { s1 with business_rules := s1.business_rules ++ analyze_on_submit body }
        else s1
      visitStmts s2 body
  | PyStmt.asyncFunctionDef _ _ _ body _ _ => visitStmts s body
  | PyStmt.classDef _ _ _ body _ _ => visitStmts s body
  | PyStmt.ifStmt body orelse _ => visitStmts (visitStmts s body) orelse
  | _ => s

/-- Visit a list of child statements in order. -/
def visitStmts (s : AnalyzerStats) : List PyStmt → AnalyzerStats
  | [] => s
  | x :: xs => visitStmts (visitStmt s x) xs

end

/-- The freshly-constructed `ERPNextAnalyzer()` stats. -/
def initStats : AnalyzerStats := { methods_found := 0, business_rules := [] }

/-- `Analyzer.analyze_file` after parsing: run the visitor over the module body
starting from fresh stats. -/
def analyze_file (tree_body : List PyStmt) : AnalyzerStats :=
  visitStmts initStats tree_body

mutual

/-- Specification-level count: the number of synchronous function definitions
occurring in a statement at any nesting depth.  Async definitions are traversed
but never counted. -/
def syncDefCount : PyStmt → Nat
  | PyStmt.functionDef _ _ _ body _ _ => 1 + syncDefCountList body
  | PyStmt.asyncFunctionDef _ _ _ body _ _ => syncDefCountList body
  | PyStmt.classDef _ _ _ body _ _ => syncDefCountList body
  | PyStmt.ifStmt body orelse _ => syncDefCountList body + syncDefCountList orelse
  | _ => 0

/-- Specification-level count over a statement list. -/
def syncDefCountList : List PyStmt → Nat
  | [] => 0
  | x :: xs => syncDefCount x + syncDefCountList xs

end

mutual

/-- Specification-level rule collection: the business rules contributed by a
statement, in visit (depth-first, pre-order) order — only a synchronous
function definition named `on_submit` triggers the hook sub-pass. -/
def hookRules : PyStmt → List BusinessRule
  | PyStmt.functionDef name _ _ body _ _ =>
      (if name = "on_submit" then analyze_on_submit body else []) ++ hookRulesList body
  | PyStmt.asyncFunctionDef _ _ _ body _ _ => hookRulesList body
  | PyStmt.classDef _ _ _ body _ _ => hookRulesList body
  | PyStmt.ifStmt body orelse _ => hookRulesList body ++ hookRulesList orelse
  | _ => []

/-- Specification-level rule collection over a statement list. -/
def hookRulesList : List PyStmt → List BusinessRule
  | [] => []
  | x :: xs => hookRules x ++ hookRulesList xs

end

/-- Specification-level matcher for one hook-body statement, from §4.2 of the
spec: a plain expression-statement that is a direct method call on an object
(a call whose callee is an attribute access) yields one BusinessRule with the
attribute name and the statement's source line; any other statement yields
nothing. -/
def hook_rule_spec : PyStmt → Option BusinessRule
  | PyStmt.exprStmt (PyExpr.call (PyExpr.attribute _ attr) _) lineno =>
      some { source_method := "on_submit", calls := attr, line_number := lineno }
  | _ => none

/-- The `metadata` dictionary of a RAG document: `class` is present exactly for
method documents. -/
structure DocMetadata where
  file : String
  name : String
  type : String
  «class» : Option String
  deriving Repr, DecidableEq

/-- One document built by `Analyzer.build_documents`. -/
structure Document where
  text : String
  metadata : DocMetadata
  deriving Repr, DecidableEq

/-- One method record as read from the entities JSON by `build_documents`
(the fields it accesses: `name` and `source_code`). -/
structure RagMethod where
  name : String
  source_code : String
  deriving Repr, DecidableEq

/-- One entity record as read from the entities JSON by `build_documents`
(the fields it accesses: `type`, `name`, `source_code`, `methods`). -/
structure RagEntity where
  type : String
  name : String
  source_code : String
  methods : List RagMethod
  deriving Repr, DecidableEq

/-- `Analyzer.build_documents`, over the parsed entities JSON modelled as an
association list (Python preserves object-key order when loading JSON): for a
`"class"` entity append its class document then one method document per method
in order; for any other entity append one function document. -/
def build_documents (data : List (String × List RagEntity)) : List Document :=
  data.foldl (fun documents entry =>
    entry.2.foldl (fun documents ent =>
      if ent.type = "class" then
        (documents ++
          [{ text := ent.source_code
             metadata := { file := entry.1, name := ent.name, type := "class",
                           «class» := none } }]) ++
          ent.methods.map (fun m =>
            { text := m.source_code
              metadata := { file := entry.1, name := m.name, type := "method",
                            «class» := some ent.name } })
      else
        documents ++
          [{ text := ent.source_code
             metadata := { file := entry.1, name := ent.name, type := "function",
                           «class» := none } }]) documents) []

/-- Specification-level flattening, from §4.4 of the spec: iterate files in
catalog order; within a file, for each class entity emit one `type = class`
document then one `type = method` document per method in the class's method
order with `class` set to the class name; for each function entity emit one
`type = function` document. -/
def flatten_documents_spec (data : List (String × List RagEntity)) : List Document :=
  (data.map (fun entry =>
    (entry.2.map (fun ent =>
      if ent.type = "class" then
        { text := ent.source_code
          metadata := { file := entry.1, name := ent.name, type := "class",
                        «class» := none } } ::
          ent.methods.map (fun m =>
            { text := m.source_code
              metadata := { file := entry.1, name := m.name, type := "method",
                            «class» := some ent.name } })
      else if ent.type = "function" then
        [{ text := ent.source_code
           metadata := { file := entry.1, name := ent.name, type := "function",
                         «class» := none } }]
      else [])).flatten)).flatten

/-- `Analyzer.build_index`: the texts of the documents, in order, are encoded by
the embedding model (`encode`, a parameter standing for the external
`model.encode`), the resulting vectors are added to a fresh FAISS index in that
order (the index is modelled by the list of vectors it holds), and the document
list itself is persisted as the metadata store. -/
def build_index {α : Type} (encode : List String → List α) (docs : List Document) :
    List α × List Document :=
  let texts := docs.map (fun d => d.text)
  let embeddings := encode texts
  (embeddings, docs)

/-- `Analyzer.retrieve`, after the FAISS search: map each returned index
position to the metadata entry at that position (`metadata[idx]`; Python
indexing is modelled with a default for out-of-range positions, which FAISS
does not return for a populated index). -/
def retrieve (metadata : List Document) (indices : List Nat) (dflt : Document) :
    List Document :=
  indices.foldl (fun results idx => results ++ [metadata.getD idx dflt]) []

/-- The decorator expression `a.b.⋯` with the given base identifier and the
attribute segments in source order. -/
def mkAttrChain (base : String) (attrs : List String) : PyExpr :=
  attrs.foldl (fun e a => PyExpr.attribute e a) (PyExpr.name base)

/-- The attribute chain of `a.b.c`. -/
def abcChain : PyExpr :=
  PyExpr.attribute (PyExpr.attribute (PyExpr.name "a") "b") "c"

/-- The top-level statements that produce an entity record: class definitions
and (sync or async) function definitions. -/
def isDefLike : PyStmt → Bool
  | PyStmt.classDef _ _ _ _ _ _ => true
  | PyStmt.functionDef _ _ _ _ _ _ => true
  | PyStmt.asyncFunctionDef _ _ _ _ _ _ => true
  | _ => false

/-- The class-body items that produce a method record. -/
def isFuncLike : PyStmt → Bool
  | PyStmt.functionDef _ _ _ _ _ _ => true
  | PyStmt.asyncFunctionDef _ _ _ _ _ _ => true
  | _ => false

/-- The statement `self.m()` on the given source line. -/
def selfCall (m : String) (lineno : Nat) : PyStmt :=
  PyStmt.exprStmt (PyExpr.call (PyExpr.attribute (PyExpr.name "self") m) []) lineno

/-- A concrete well-formed entity, used by closed instances. -/
def sampleEntity (nm : String) : Entity :=
  Entity.fn (extract_function nm ["self"] [] [] 10 12 false none)

/-- A concrete one-file catalog as consumed by `build_documents`: one class
with two methods followed by one top-level function. -/
def exampleCatalog : List (String × List RagEntity) :=
  [("sales_invoice.py",
    [{ type := "class"
       name := "SalesInvoice"
       source_code := "class SalesInvoice:\n    pass"
       methods := [{ name := "on_submit", source_code := "def on_submit(self): pass" },
                   { name := "validate", source_code := "def validate(self): pass" }] },
     { type := "function"
       name := "make_invoice"
       source_code := "def make_invoice(): pass"
       methods := [] }])]

/-- A concrete class document. -/
def docA : Document :=
  { text := "class SalesInvoice:\n    pass"
    metadata := { file := "sales_invoice.py", name := "SalesInvoice", type := "class",
                  «class» := none } }

/-- A concrete method document. -/
def docB : Document :=
  { text := "def validate(self): pass"
    metadata := { file := "sales_invoice.py", name := "validate", type := "method",
                  «class» := some "SalesInvoice" } }

/-- A left fold whose step appends a block of results per element is the
flattened map. -/
theorem foldl_append_flatten {β γ : Type} (g : β → List γ) (step : List γ → β → List γ)
    (hstep : ∀ s x, step s x = s ++ g x) (l : List β) (acc : List γ) :
    l.foldl step acc = acc ++ (l.map g).flatten := by
  induction l generalizing acc with
  | nil => simp
  | cons x xs ih => simp [hstep, ih]

/-- A left fold whose step appends one optional result per element is the
filtered map. -/
theorem foldl_append_filterMap {β γ : Type} (g : β → Option γ) (step : List γ → β → List γ)
    (hstep : ∀ s x, step s x = s ++ (g x).toList) (l : List β) (acc : List γ) :
    l.foldl step acc = acc ++ l.filterMap g := by
  induction l generalizing acc with
  | nil => simp
  | cons x xs ih =>
    simp only [List.foldl_cons, ih, hstep, List.filterMap_cons]
    cases g x <;> simp

/-- A left fold whose step appends exactly one result per element is the map. -/
theorem foldl_append_map {β γ : Type} (g : β → γ) (step : List γ → β → List γ)
    (hstep : ∀ s x, step s x = s ++ [g x]) (l : List β) (acc : List γ) :
    l.foldl step acc = acc ++ l.map g := by
  induction l generalizing acc with
  | nil => simp
  | cons x xs ih => simp [hstep, ih]

/-- The scan of the hook body is the filtered map of the per-statement
specification matcher. -/
theorem analyze_on_submit_eq_filterMap (body : List PyStmt) :
    analyze_on_submit body = body.filterMap hook_rule_spec := by
  unfold analyze_on_submit
  refine (foldl_append_filterMap hook_rule_spec _ ?_ body []).trans (by simp)
  intro s x
  cases x with
  | exprStmt v lineno =>
    cases v with
    | call func args => cases func <;> simp [hook_rule_spec]
    | _ => simp [hook_rule_spec]
  | _ => simp [hook_rule_spec]

mutual

/-- Visiting one statement adds the specification-level sync-definition count
and appends the specification-level hook rules ([[visitStmts_eq]] jointly). -/
theorem visitStmt_eq (s : AnalyzerStats) (stmt : PyStmt) :
    visitStmt s stmt = { methods_found := s.methods_found + syncDefCount stmt,
                         business_rules := s.business_rules ++ hookRules stmt } := by
  cases stmt with
  | functionDef nm args decs body l e =>
    simp only [visitStmt, syncDefCount, hookRules, visitStmts_eq]
    by_cases h : nm = "on_submit" <;> simp [h] <;> omega
  | asyncFunctionDef nm args decs body l e =>
    simp [visitStmt, syncDefCount, hookRules, visitStmts_eq]
  | classDef nm bases decs body l e =>
    simp [visitStmt, syncDefCount, hookRules, visitStmts_eq]
  | ifStmt body orelse l =>
    simp [visitStmt, syncDefCount, hookRules, visitStmts_eq]
    omega
  | exprStmt v l => simp [visitStmt, syncDefCount, hookRules]
  | assign v l => simp [visitStmt, syncDefCount, hookRules]
  | importFrom m l => simp [visitStmt, syncDefCount, hookRules]
  | passStmt l => simp [visitStmt, syncDefCount, hookRules]

/-- Visiting a statement list adds the specification-level sync-definition
count and appends the specification-level hook rules. -/
theorem visitStmts_eq (s : AnalyzerStats) (body : List PyStmt) :
    visitStmts s body = { methods_found := s.methods_found + syncDefCountList body,
                          business_rules := s.business_rules ++ hookRulesList body } := by
  cases body with
  | nil => simp [visitStmts, syncDefCountList, hookRulesList]
  | cons x xs =>
    simp only [visitStmts, syncDefCountList, hookRulesList, visitStmt_eq, visitStmts_eq]
    simp
    omega

end

/-- The catalog builder is the filtered map keeping the successfully extracted
files with a non-empty entity list. -/
theorem extract_entities_from_directory_eq
    (files : List (String × Except String (List Entity))) :
    extract_entities_from_directory files =
      files.filterMap (fun file =>
        match file.2 with
        | Except.ok entities => if entities ≠ [] then some (file.1, entities) else none
        | Except.error _ => none) := by
  unfold extract_entities_from_directory
  refine (foldl_append_filterMap (fun file =>
    match file.2 with
    | Except.ok entities => if entities ≠ [] then some (file.1, entities) else none
    | Except.error _ => none) _ ?_ files []).trans (by simp)
  intro s x
  rcases x with ⟨p, r⟩
  cases r with
  | ok entities => by_cases h : entities = [] <;> simp [h]
  | error e => simp

/-- The documents contributed by one entity of one file, in emission order. -/
def entityDocs (file : String) (ent : RagEntity) : List Document :=
  if ent.type = "class" then
    { text := ent.source_code
      metadata := { file := file, name := ent.name, type := "class", «class» := none } } ::
      ent.methods.map (fun m =>
        { text := m.source_code
          metadata := { file := file, name := m.name, type := "method",
                        «class» := some ent.name } })
  else
    [{ text := ent.source_code
       metadata := { file := file, name := ent.name, type := "function", «class» := none } }]

/-- The double `for` loop of `build_documents` flattens the per-entity document
blocks in catalog-file order and entity order. -/
theorem build_documents_eq (data : List (String × List RagEntity)) :
    build_documents data =
      (data.map (fun entry => (entry.2.map (entityDocs entry.1)).flatten)).flatten := by
  unfold build_documents
  refine (foldl_append_flatten (fun entry => (entry.2.map (entityDocs entry.1)).flatten)
    _ ?_ data []).trans (by simp)
  intro s entry
  refine (foldl_append_flatten (entityDocs entry.1) _ ?_ entry.2 s)
  intro s ent
  by_cases h : ent.type = "class" <;> simp [h, entityDocs]

/-- The `while` loop of `get_attribute_name` applied to a chain built over any
base expression collects the segments in reverse order before the base. -/
theorem attributeParts_foldl (attrs : List String) (e : PyExpr) :
    attributeParts (attrs.foldl (fun e a => PyExpr.attribute e a) e) =
      attrs.reverse ++ attributeParts e := by
  induction attrs generalizing e with
  | nil => simp
  | cons a as ih => simp [ih, attributeParts]

/-- `get_attribute_name` on `base.a₁.⋯.aₙ` is the dot-joined chain in source
order. -/
theorem get_attribute_name_chain (base : String) (attrs : List String) :
    get_attribute_name (mkAttrChain base attrs) = String.intercalate "." (base :: attrs) := by
  unfold get_attribute_name mkAttrChain
  rw [attributeParts_foldl]
  simp [attributeParts]

/-- `get_decorator_name` on `base.a₁.⋯.aₙ` is the dot-joined chain in source
order. -/
theorem get_decorator_name_chain (base : String) (attrs : List String) :
    get_decorator_name (mkAttrChain base attrs) = String.intercalate "." (base :: attrs) := by
  rcases List.eq_nil_or_concat attrs with h | ⟨as, a, h⟩
  · subst h
    rfl
  · subst h
    simp only [List.concat_eq_append]
    have hsplit : mkAttrChain base (as ++ [a]) = PyExpr.attribute (mkAttrChain base as) a := by
      simp [mkAttrChain]
    rw [hsplit]
    show get_attribute_name (PyExpr.attribute (mkAttrChain base as) a) =
      String.intercalate "." (base :: (as ++ [a]))
    rw [← hsplit, get_attribute_name_chain]

/-- Python's `s[:200]` guarded by the truthiness of `s` is plain truncation. -/
theorem truncation_eq_take (s : String) :
    (if s ≠ "" then s.take 200 else "") = s.take 200 := by
  by_cases h : s = ""
  · simp [h, String.take_eq]
  · simp [h]

/-- A truncated docstring has at most 200 characters. -/
theorem take200_length_le (s : String) : (s.take 200).length ≤ 200 := by
  rw [String.take_eq]
  show (s.1.take 200).length ≤ 200
  simp

/-- A truncated docstring is a character-level prefix of the docstring: no
ellipsis marker or any other text is appended. -/
theorem take200_isPre (s : String) : (s.take 200).data <+: s.data := by
  rw [String.take_eq]
  show s.1.take 200 <+: s.1
  exact List.take_prefix 200 s.1

/-- The length of a filtered map counts the elements the function keeps. -/
theorem length_filterMap_eq_countP {β γ : Type} (f : β → Option γ) (l : List β) :
    (l.filterMap f).length = l.countP (fun x => (f x).isSome) := by
  induction l with
  | nil => rfl
  | cons x xs ih =>
    cases h : f x <;> simp [List.filterMap_cons, h, List.countP_cons, ih]

/-- The docstring field of a class entity is the docstring truncated to 200
characters (empty when absent). -/
theorem extract_class_docstring (n : String) (b d : List PyExpr) (body : List PyStmt)
    (l e : Nat) :
    (extract_class n b d body l e).docstring = ((get_docstring body).getD "").take 200 := by
  simp only [extract_class]
  exact truncation_eq_take _

/-- The docstring field of a function entity is the docstring truncated to 200
characters (empty when absent). -/
theorem extract_function_docstring (nm : String) (a : List String) (d : List PyExpr)
    (body : List PyStmt) (l e : Nat) (ia : Bool) (p : Option String) :
    (extract_function nm a d body l e ia p).docstring =
      ((get_docstring body).getD "").take 200 := by
  simp only [extract_function]
  exact truncation_eq_take _

/-- The methods of a class entity are the extraction of exactly the immediate
function-definition items of the class body. -/
theorem extract_class_methods (n : String) (b d : List PyExpr) (body : List PyStmt)
    (l e : Nat) :
    (extract_class n b d body l e).methods = body.filterMap (fun item =>
      match item with
      | PyStmt.functionDef n2 a2 d2 b2 l2 e2 =>
          some (extract_function n2 a2 d2 b2 l2 e2 false (some n))
      | PyStmt.asyncFunctionDef n2 a2 d2 b2 l2 e2 =>
          some (extract_function n2 a2 d2 b2 l2 e2 true (some n))
      | _ => none) := by
  simp only [extract_class]

/-- C1: For every catalog whose entities are classes or top-level functions,
the Document Flattener emits, for each class entity, one Document whose text is
the class's source span with metadata `type = class`, then one Document per
method (in the class's method order) whose text is the method's own source span
with `type = method` and `class` set to the class name, and for each top-level
function entity one Document with `type = function`, in catalog-file order and
source order within a file. -/
theorem c1_document_flattener (data : List (String × List RagEntity))
    (h : ∀ entry ∈ data, ∀ ent ∈ entry.2, ent.type = "class" ∨ ent.type = "function") :
    build_documents data = flatten_documents_spec data := by
  rw [build_documents_eq]
  unfold flatten_documents_spec
  refine congrArg List.flatten (List.map_congr_left ?_)
  intro entry hentry
  refine congrArg List.flatten (List.map_congr_left ?_)
  intro ent hent
  rcases h entry hentry ent hent with hc | hf
  · simp [entityDocs, hc]
  · have hcc : ent.type ≠ "class" := by rw [hf]; decide
    simp [entityDocs, hf, hcc]

/-- Closed instance of `c1_document_flattener`: a one-file catalog with one
class (two methods) and one top-level function. -/
theorem c1_document_flattener_witness :
    build_documents exampleCatalog = flatten_documents_spec exampleCatalog :=
  c1_document_flattener exampleCatalog (by decide)

/-- C2: For every hook-function body, the Hook Call Analyzer emits exactly one
BusinessRule, in source order, per immediate top-level expression-statement
that is a call whose callee is an attribute access, with `source_method`
constant and `line_number` the statement's source line; in particular three
direct top-level calls `self.x()`, `self.y()`, `self.z()` yield exactly three
records in that order, while a call nested inside an `if` or a call whose
result is assigned produces no record. -/
theorem c2_hook_call_analyzer :
    (∀ body, analyze_on_submit body = body.filterMap hook_rule_spec) ∧
    analyze_on_submit [selfCall "x" 2, selfCall "y" 3, selfCall "z" 4] =
      [{ source_method := "on_submit", calls := "x", line_number := 2 },
       { source_method := "on_submit", calls := "y", line_number := 3 },
       { source_method := "on_submit", calls := "z", line_number := 4 }] ∧
    analyze_on_submit [PyStmt.ifStmt [selfCall "x" 3] [] 2] = [] ∧
    analyze_on_submit
      [PyStmt.assign (PyExpr.call (PyExpr.attribute (PyExpr.name "self") "x") []) 2] = [] := by
  refine ⟨analyze_on_submit_eq_filterMap, ?_, ?_, ?_⟩ <;> rfl

/-- C3: A read or parse failure of one file never aborts the run: the failing
file contributes zero entities and every other file's extraction is unchanged;
a directory with one malformed and two well-formed files yields exactly the two
well-formed files' entities. -/
theorem c3_failure_isolation :
    (∀ xs ys p e, extract_entities_from_directory (xs ++ (p, Except.error e) :: ys) =
        extract_entities_from_directory (xs ++ ys)) ∧
    extract_entities_from_directory
        [("invoice.py", Except.ok [sampleEntity "validate"]),
         ("broken.py", Except.error "SyntaxError"),
         ("order.py", Except.ok [sampleEntity "on_submit"])] =
      [("invoice.py", [sampleEntity "validate"]),
       ("order.py", [sampleEntity "on_submit"])] := by
  constructor
  · intro xs ys p e
    simp only [extract_entities_from_directory_eq, List.filterMap_append, List.filterMap_cons]
  · rfl

/-- C4: For every document sequence, assuming the embedding service is
order-preserving, the Document stored at metadata position `i` is the one whose
text produced the vector at index position `i`, and at query time each returned
index position is mapped to the metadata entry at that same position. -/
theorem c4_index_metadata_alignment {α : Type} (encode : List String → List α)
    (encodeOne : String → α) (horder : ∀ ts, encode ts = ts.map encodeOne)
    (docs : List Document) (v0 : α) (d0 : Document) :
    (∀ i, i < docs.length →
      (build_index encode docs).1.getD i v0 =
        encodeOne (((build_index encode docs).2.getD i d0).text)) ∧
    (∀ metadata indices, retrieve metadata indices d0 =
        indices.map (fun idx => metadata.getD idx d0)) := by
  constructor
  · intro i hi
    have hg : docs[i]? = some docs[i] := List.getElem?_eq_getElem hi
    simp [build_index, horder, List.getD_eq_getElem?_getD, List.getElem?_map, hg]
  · intro metadata indices
    unfold retrieve
    exact (foldl_append_map (fun idx => metadata.getD idx d0) _ (fun s x => rfl)
      indices []).trans (by simp)

/-- Closed instance of `c4_index_metadata_alignment` with character count as a
one-dimensional embedding over a two-document store. -/
theorem c4_index_metadata_alignment_witness :
    (build_index (fun ts => ts.map (fun t => t.length)) [docA, docB]).1.getD 1 0 =
      (((build_index (fun ts => ts.map (fun t => t.length)) [docA, docB]).2.getD 1 docA).text).length ∧
    retrieve [docA, docB] [1, 0] docA = [docB, docA] := by
  constructor
  · exact (c4_index_metadata_alignment (fun ts => ts.map (fun t => t.length))
      (fun t => t.length) (fun ts => rfl) [docA, docB] 0 docA).1 1 (by decide)
  · rw [(c4_index_metadata_alignment (fun ts => ts.map (fun t => t.length))
      (fun t => t.length) (fun ts => rfl) [docA, docB] 0 docA).2 [docA, docB] [1, 0]]
    rfl

/-- C5: The extractor assigns `kind` by exact priority: owning class and name
`__init__` gives constructor; else owning class and a leading underscore gives
private method; else owning class gives (public) method; else module-level
function — so `__init__` inside a class is always a constructor even though its
name starts with an underscore. -/
theorem c5_kind_priority :
    (∀ args decs body l e ia c, c ≠ "" →
      (extract_function "__init__" args decs body l e ia (some c)).kind = "constructor") ∧
    startswith "__init__" "_" = true ∧
    (∀ nm args decs body l e ia c, c ≠ "" → nm ≠ "__init__" → startswith nm "_" = true →
      (extract_function nm args decs body l e ia (some c)).kind = "private_method") ∧
    (∀ nm args decs body l e ia c, c ≠ "" → nm ≠ "__init__" → startswith nm "_" = false →
      (extract_function nm args decs body l e ia (some c)).kind = "method") ∧
    (∀ nm args decs body l e ia,
      (extract_function nm args decs body l e ia none).kind = "function") := by
  refine ⟨?_, by decide, ?_, ?_, ?_⟩
  · intro args decs body l e ia c hc
    simp [extract_function, hc]
  · intro nm args decs body l e ia c hc h1 h2
    simp [extract_function, hc, h1, h2]
  · intro nm args decs body l e ia c hc h1 h2
    simp [extract_function, hc, h1, h2]
  · intro nm args decs body l e ia
    simp [extract_function]

/-- Closed instance of `c5_kind_priority` at the four classification shapes. -/
theorem c5_kind_priority_witness :
    (extract_function "__init__" ["self"] [] [] 12 20 false (some "SalesInvoice")).kind =
      "constructor" ∧
    (extract_function "_validate" ["self"] [] [] 21 25 false (some "SalesInvoice")).kind =
      "private_method" ∧
    (extract_function "on_submit" ["self"] [] [] 26 30 false (some "SalesInvoice")).kind =
      "method" ∧
    (extract_function "make_invoice" [] [] [] 3 5 false none).kind = "function" :=
  ⟨c5_kind_priority.1 ["self"] [] [] 12 20 false "SalesInvoice" (by decide),
   c5_kind_priority.2.2.1 "_validate" ["self"] [] [] 21 25 false "SalesInvoice"
     (by decide) (by decide) (by decide),
   c5_kind_priority.2.2.2.1 "on_submit" ["self"] [] [] 26 30 false "SalesInvoice"
     (by decide) (by decide) (by decide),
   c5_kind_priority.2.2.2.2 "make_invoice" [] [] [] 3 5 false⟩

/-- C6: Decorator resolution maps a simple identifier to itself, an attribute
chain to its dot-joined chain in source order, and a call expression to the
resolution of its callee with arguments discarded, and any other shape to the
sentinel `"unknown_decorator"`; resolving `@a.b.c` yields `"a.b.c"` and
resolving `@a.b.c(x=1)` yields the same `"a.b.c"`. -/
theorem c6_decorator_resolution :
    (∀ id, get_decorator_name (PyExpr.name id) = id) ∧
    (∀ base attrs, get_decorator_name (mkAttrChain base attrs) =
        String.intercalate "." (base :: attrs)) ∧
    (∀ func args, get_decorator_name (PyExpr.call func args) = get_decorator_name func) ∧
    (∀ s, get_decorator_name (PyExpr.constant s) = "unknown_decorator") ∧
    get_decorator_name PyExpr.otherExpr = "unknown_decorator" ∧
    get_decorator_name abcChain = "a.b.c" ∧
    get_decorator_name (PyExpr.call abcChain [PyExpr.name "x"]) = "a.b.c" := by
  exact ⟨fun id => rfl, get_decorator_name_chain, fun f a => rfl, fun s => rfl, rfl, rfl, rfl⟩

/-- C7: Extraction visits only the module body's top-level nodes (exactly one
entity per top-level class or function definition and none for anything else),
descends exactly one level into class bodies (exactly one method per immediate
function definition of the class body, none for nested classes), and never
recurses into function bodies: a function entity depends on its body only
through the leading docstring, so function or class definitions nested inside a
function produce no Entity records. -/
theorem c7_depth_limit :
    (∀ tree_body, (extract_entities_from_file tree_body).length =
        tree_body.countP isDefLike) ∧
    (∀ n b d body l e, (extract_class n b d body l e).methods.length =
        body.countP isFuncLike) ∧
    (∀ n a d b1 b2 l e ia p, get_docstring b1 = get_docstring b2 →
      extract_function n a d b1 l e ia p = extract_function n a d b2 l e ia p) := by
  refine ⟨?_, ?_, ?_⟩
  · intro tree_body
    unfold extract_entities_from_file
    rw [length_filterMap_eq_countP,
      show (fun x => (extract_entity x).isSome) = isDefLike from
        funext fun x => by cases x <;> rfl]
  · intro n b d body l e
    rw [extract_class_methods, length_filterMap_eq_countP]
    congr 1
    funext x
    cases x <;> rfl
  · intro n a d b1 b2 l e ia p h
    simp [extract_function, h]

/-- Closed instance of `c7_depth_limit`: a nested function definition inside a
function body leaves the extracted entity unchanged (compared to a plain
non-docstring statement), i.e. it produces no record of its own. -/
theorem c7_depth_limit_witness :
    extract_function "outer" ["self"] [] [PyStmt.functionDef "inner" [] [] [] 2 3] 1 3
        false none =
      extract_function "outer" ["self"] [] [PyStmt.passStmt 2] 1 3 false none :=
  c7_depth_limit.2.2 "outer" ["self"] [] [PyStmt.functionDef "inner" [] [] [] 2 3]
    [PyStmt.passStmt 2] 1 3 false none rfl

/-- C8: For every extracted class or function entity, the docstring field is
the leading docstring truncated to at most 200 characters — a character-level
prefix, so no ellipsis marker is added — and the empty string when absent. -/
theorem c8_docstring_truncation :
    (∀ n b d body l e,
      (extract_class n b d body l e).docstring = ((get_docstring body).getD "").take 200 ∧
      (extract_class n b d body l e).docstring.length ≤ 200 ∧
      (extract_class n b d body l e).docstring.data <+: ((get_docstring body).getD "").data ∧
      (get_docstring body = none → (extract_class n b d body l e).docstring = "")) ∧
    (∀ nm a d body l e ia p,
      (extract_function nm a d body l e ia p).docstring =
        ((get_docstring body).getD "").take 200 ∧
      (extract_function nm a d body l e ia p).docstring.length ≤ 200 ∧
      (extract_function nm a d body l e ia p).docstring.data <+:
        ((get_docstring body).getD "").data ∧
      (get_docstring body = none → (extract_function nm a d body l e ia p).docstring = "")) := by
  constructor
  · intro n b d body l e
    refine ⟨extract_class_docstring n b d body l e, ?_, ?_, ?_⟩
    · rw [extract_class_docstring]
      exact take200_length_le _
    · rw [extract_class_docstring]
      exact take200_isPre _
    · intro h
      rw [extract_class_docstring, h]
      simp [String.take_eq]
  · intro nm a d body l e ia p
    refine ⟨extract_function_docstring nm a d body l e ia p, ?_, ?_, ?_⟩
    · rw [extract_function_docstring]
      exact take200_length_le _
    · rw [extract_function_docstring]
      exact take200_isPre _
    · intro h
      rw [extract_function_docstring, h]
      simp [String.take_eq]

/-- Closed instance of `c8_docstring_truncation`: entities without a docstring
carry the empty string. -/
theorem c8_docstring_truncation_witness :
    (extract_class "SalesInvoice" [] [] [] 1 2).docstring = "" ∧
    (extract_function "validate" [] [] [] 3 4 false none).docstring = "" :=
  ⟨(c8_docstring_truncation.1 "SalesInvoice" [] [] [] 1 2).2.2.2 rfl,
   (c8_docstring_truncation.2 "validate" [] [] [] 3 4 false none).2.2.2 rfl⟩

/-- C9: The analyzer's `methods_found` counter counts every synchronous
function definition at any nesting depth and never an async one, and only
synchronous definitions named `on_submit` trigger the hook sub-pass — in
particular an async `on_submit` whose body contains a direct `self` call
yields neither a count nor any business rule. -/
theorem c9_sync_only_counting :
    (∀ tree_body, analyze_file tree_body =
      { methods_found := syncDefCountList tree_body,
        business_rules := hookRulesList tree_body }) ∧
    analyze_file [PyStmt.asyncFunctionDef "on_submit" [] [] [selfCall "update_stock" 2] 1 2] =
      initStats := by
  constructor
  · intro tree_body
    rw [analyze_file, visitStmts_eq]
    simp [initStats]
  · simp [analyze_file, visitStmts, visitStmt, selfCall, initStats]

/-- C10: For every matching top-level call in the hook body, the recorded
callee name is only the final attribute segment of the callee expression: a
call `a.b.c()` at the top level of the hook yields the name `"c"`, not the
dot-joined chain `"a.b.c"` that full attribute resolution would give. -/
theorem c10_final_attribute_segment :
    (∀ pre post v attr args lineno,
      analyze_on_submit
          (pre ++ PyStmt.exprStmt (PyExpr.call (PyExpr.attribute v attr) args) lineno :: post) =
        analyze_on_submit pre ++
          { source_method := "on_submit", calls := attr, line_number := lineno } ::
            analyze_on_submit post) ∧
    analyze_on_submit [PyStmt.exprStmt (PyExpr.call abcChain []) 7] =
      [{ source_method := "on_submit", calls := "c", line_number := 7 }] ∧
    get_attribute_name abcChain = "a.b.c" ∧
    ("c" : String) ≠ "a.b.c" := by
  refine ⟨?_, rfl, rfl, by decide⟩
  intro pre post v attr args lineno
  simp [analyze_on_submit_eq_filterMap, List.filterMap_append, List.filterMap_cons,
    hook_rule_spec]
